import Mathlib

/-!
Verification of the projection & valuation pipeline of the
fantasy_baseball_sleeper_finder repository.

The Python source is shallowly embedded over `ℚ`: stat values, dollar
amounts and scores become rationals, `pandas`/`numpy` rounding (`round`,
`.round(n)`, both round-half-to-even on decimals) becomes `rhe` below,
optional / NaN-able cells become `Option ℚ`, and Python's `x or d`
fallback on numbers becomes `pyOr`.
-/

namespace FB
/-- Round half to even (banker's rounding), as used by Python's `round`
and numpy/pandas `.round`. -/
def rhe (q : ℚ) : ℤ :=
  if q - ⌊q⌋ < 1/2 then ⌊q⌋
  else if 1/2 < q - ⌊q⌋ then ⌊q⌋ + 1
  else if ⌊q⌋ % 2 = 0 then ⌊q⌋ else ⌊q⌋ + 1

/-- `round(x, 1)` on decimals: scale by 10, round half to even, scale back. -/
def rhe1 (q : ℚ) : ℚ := (rhe (q * 10) : ℚ) / 10

/-- `round(x, 4)` on decimals. -/
def rhe4 (q : ℚ) : ℚ := (rhe (q * 10000) : ℚ) / 10000

/-- Python's `x or d` for a possibly-missing numeric `x`: `None` and `0`
are falsy and fall through to the default. -/
def pyOr (x : Option ℚ) (d : ℚ) : ℚ :=
  match x with
  | none => d
  | some v => if v = 0 then d else v

/-!
### Auction valuation engine — `_scale_to_dollars`
(`src/backend/app/services/auction_service.py`)

A pool is the list of the players' `sgp_total` values; the replacement
level, value above replacement, and dollar values are computed per row
exactly as in the source.
-/

/-- `df.sort_values("sgp_total", ascending=False)` on the pool column. -/
def sortDesc (l : List ℚ) : List ℚ := l.insertionSort (· ≥ ·)

/-- Replacement level: the `sgp_total` of the last rostered player
(`df.iloc[total_roster_slots]` after the descending sort), or 0 when the
pool does not exceed the roster slots. -/
def replacementSgp (l : List ℚ) (totalRosterSlots : ℕ) : ℚ :=
  if totalRosterSlots < l.length then (sortDesc l).getD totalRosterSlots 0 else 0

/-- Value above replacement: `df["var"] = (sgp_total - replacement).clip(lower=0)`. -/
def varOf (l : List ℚ) (totalRosterSlots : ℕ) (s : ℚ) : ℚ :=
  max (s - replacementSgp l totalRosterSlots) 0

/-- `total_var = df["var"].sum()`. -/
def totalVar (l : List ℚ) (totalRosterSlots : ℕ) : ℚ :=
  (l.map (varOf l totalRosterSlots)).sum

/-- `_scale_to_dollars` per row: scale VAR to the distributable pool
(`total_dollars - total_roster_slots`), add back the $1 reserve, round to
one decimal; rows at or below replacement are overridden to exactly $1. -/
def auctionValue (l : List ℚ) (totalDollars : ℚ) (totalRosterSlots : ℕ)
    (s : ℚ) : ℚ :=
  let distributable := totalDollars - totalRosterSlots
  let base :=
    if 0 < totalVar l totalRosterSlots then
      rhe1 (varOf l totalRosterSlots s / totalVar l totalRosterSlots
        * distributable + 1)
    else 1
  if varOf l totalRosterSlots s ≤ 0 then 1 else base

/-!
### Dynasty valuation engine — `calculate_dynasty_value`
(`src/backend/app/services/auction_service.py`)
-/

/-- The 3-segment piecewise aging curve used inside the dynasty loop:
slight growth pre-27, 2%/yr decline 27–32, steeper decline beyond 32
floored at 30% of peak. -/
def ageFactor (futureAge : ℤ) : ℚ :=
  if futureAge ≤ 27 then 1 + (1/100) * ((27 - futureAge : ℤ) : ℚ)
  else if futureAge ≤ 32 then 1 - (2/100) * ((futureAge - 27 : ℤ) : ℚ)
  else max (3/10) (1 - (2/100) * 5 - (4/100) * ((futureAge - 32 : ℤ) : ℚ))

/-- The accumulated `total_future_value`: each year's value times the age
factor, discounted by `0.9 ** year`, floored at 0 before accumulating. -/
def dynastyRaw (age : ℤ) (annualValue : ℚ) (yoc : ℕ) : ℚ :=
  ∑ year ∈ Finset.range yoc,
    max 0 (annualValue * ageFactor (age + (year : ℤ)) * (9/10) ^ year)

/-- The `keep_cut` loop: starting at 0, year `y` bumps the horizon to
`y + 1` exactly when the keeper cost is still below the projected value
and the horizon has kept pace so far. -/
def keepCut (age : ℤ) (annualValue currentCost inflation : ℚ) (yoc : ℕ) : ℕ :=
  (List.range yoc).foldl
    (fun (k year : ℕ) =>
      if currentCost + inflation * (year : ℚ)
          < annualValue * ageFactor (age + (year : ℤ)) ∧ k = year
      then year + 1 else k) 0

/-- One row of the `player_values` DataFrame handed to
`calculate_dynasty_value`; the value/cost cells may be absent. -/
structure DRow where
  player_id : ℤ
  auction_value : Option ℚ
  expected_cost : Option ℚ
deriving DecidableEq

/-- `age = player_ages.get(pid, 30)`. -/
def rowAge (ages : ℤ → Option ℤ) (r : DRow) : ℤ := (ages r.player_id).getD 30

/-- `yoc = (years_of_control or {}).get(pid, max(0, 38 - age))`. -/
def rowYoc (yocMap : ℤ → Option ℕ) (ages : ℤ → Option ℤ) (r : DRow) : ℕ :=
  (yocMap r.player_id).getD (max 0 (38 - rowAge ages r)).toNat

/-- `annual_value = row.get("auction_value", 0)`. -/
def rowAnnualValue (r : DRow) : ℚ := r.auction_value.getD 0

/-- `current_cost = row.get("expected_cost", 1)`. -/
def rowCost (r : DRow) : ℚ := r.expected_cost.getD 1

def rowDynastyRaw (ages : ℤ → Option ℤ) (yocMap : ℤ → Option ℕ) (r : DRow) : ℚ :=
  dynastyRaw (rowAge ages r) (rowAnnualValue r) (rowYoc yocMap ages r)

/-- `df["dynasty_raw"].max()` — `none` on an empty pool (pandas NaN). -/
def colMax : List ℚ → Option ℚ
  | [] => none
  | x :: xs =>
    match colMax xs with
    | none => some x
    | some m => some (max x m)

/-- `dynasty_value`: normalized to 0–100 against the pool maximum, 0 when
the maximum is not positive. -/
def rowDynastyValue (pool : List DRow) (ages : ℤ → Option ℤ)
    (yocMap : ℤ → Option ℕ) (r : DRow) : ℚ :=
  match colMax (pool.map (rowDynastyRaw ages yocMap)) with
  | none => 0
  | some m => if 0 < m then rhe1 (rowDynastyRaw ages yocMap r / m * 100) else 0

def rowKeepCut (ages : ℤ → Option ℤ) (yocMap : ℤ → Option ℕ) (inflation : ℚ)
    (r : DRow) : ℕ :=
  keepCut (rowAge ages r) (rowAnnualValue r) (rowCost r) inflation
    (rowYoc yocMap ages r)

/-- `calculate_dynasty_value`: per row, the pair
`(dynasty_value, keep_cut_horizon)`. -/
def calculateDynastyValue (pool : List DRow) (ages : ℤ → Option ℤ)
    (yocMap : ℤ → Option ℕ) (inflation : ℚ) : List (ℚ × ℕ) :=
  pool.map (fun r =>
    (rowDynastyValue pool ages yocMap r, rowKeepCut ages yocMap inflation r))

/-- Length of the initial run of years accepted by the `keep_cut` loop. -/
def prefLen (cond : ℕ → Prop) [DecidablePred cond] : ℕ → ℕ
  | 0 => 0
  | n + 1 =>
    if cond n ∧ prefLen cond n = n then n + 1 else prefLen cond n

/-!
### Career trajectory model — `project_career_trajectory`
(`src/backend/ml/models/trajectory_model.py`)

The aging-curve dicts are embedded as functions `ℤ → Option ℚ`.
-/


def BATTER_AGING_CURVE (age : ℤ) : Option ℚ :=
  if age = 20 then some (55/100) else if age = 21 then some (65/100)
  else if age = 22 then some (75/100) else if age = 23 then some (83/100)
  else if age = 24 then some (90/100) else if age = 25 then some (95/100)
  else if age = 26 then some (98/100) else if age = 27 then some 1
  else if age = 28 then some (98/100) else if age = 29 then some (95/100)
  else if age = 30 then some (91/100) else if age = 31 then some (87/100)
  else if age = 32 then some (82/100) else if age = 33 then some (76/100)
  else if age = 34 then some (70/100) else if age = 35 then some (63/100)
  else if age = 36 then some (55/100) else if age = 37 then some (47/100)
  else if age = 38 then some (39/100) else if age = 39 then some (32/100)
  else if age = 40 then some (25/100) else none

def PITCHER_AGING_CURVE (age : ℤ) : Option ℚ :=
  if age = 20 then some (60/100) else if age = 21 then some (70/100)
  else if age = 22 then some (78/100) else if age = 23 then some (85/100)
  else if age = 24 then some (91/100) else if age = 25 then some (96/100)
  else if age = 26 then some 1 else if age = 27 then some (98/100)
  else if age = 28 then some (95/100) else if age = 29 then some (91/100)
  else if age = 30 then some (86/100) else if age = 31 then some (81/100)
  else if age = 32 then some (75/100) else if age = 33 then some (68/100)
  else if age = 34 then some (61/100) else if age = 35 then some (53/100)
  else if age = 36 then some (45/100) else if age = 37 then some (37/100)
  else if age = 38 then some (30/100) else if age = 39 then some (23/100)
  else if age = 40 then some (17/100) else none

def BASE_CONFIDENCE_WIDTHS : List ℚ :=
  [8/100, 14/100, 20/100, 26/100, 32/100, 38/100, 44/100, 50/100]

def agingCurveFor (ptype : String) : ℤ → Option ℚ :=
  if ptype = "batter" then BATTER_AGING_CURVE else PITCHER_AGING_CURVE

def peakAgeFor (ptype : String) : ℤ := if ptype = "batter" then 27 else 26

/-- `_get_age_factor`: table hit, otherwise the young/old extrapolations.
The table keys are the consecutive integers 20–40, so for integer ages the
linear-interpolation branch of the source is unreachable: a missing key
means `age < 20` or `age > 40`. -/
def getAgeFactor (curve : ℤ → Option ℚ) (age : ℤ) : ℚ :=
  match curve age with
  | some f => f
  | none =>
    if age < 20 then (curve 20).getD 0 * (9/10)
    else max (1/20) ((curve 40).getD 0 * (1/2))

/-- `_improvement_adjustment`. -/
def improvementAdjustment (imp : ℚ) (currentAge peakAge : ℤ) : ℚ :=
  if peakAge + 3 < currentAge then max (-(15/100)) (imp / 1000)
  else if 0 < imp then
    min (25/100)
      ((imp / 100) * (2/10) * max (3/10) (1 - ((currentAge - 22 : ℤ) : ℚ) * (1/10)))
  else max (-(20/100)) ((imp / 100) * (15/100))

/-- `estimated_peak_value` after the improvement adjustment. -/
def estimatedPeakValue (ptype : String) (age : ℤ) (v imp : ℚ) : ℚ :=
  let caf := getAgeFactor (agingCurveFor ptype) age
  let ep := if 0 < caf then min 100 (v / caf) else v
  min 100 (ep * (1 + improvementAdjustment imp age (peakAgeFor ptype)))

/-- `consistency_factor = max(0.5, consistency_score / 100)`. -/
def consistencyFactor (cs : ℚ) : ℚ := max (1/2) (cs / 100)

/-- `projected_value` at year offset `k`: aging-curve base, decaying
improvement momentum within peak range, clamped to [0, 100]. -/
def projectedValueAt (ptype : String) (age : ℤ) (v imp : ℚ) (k : ℕ) : ℚ :=
  let fa := age + (k : ℤ)
  let pv := estimatedPeakValue ptype age v imp * getAgeFactor (agingCurveFor ptype) fa
  let pv' :=
    if 0 < imp ∧ fa ≤ peakAgeFor ptype + 2 then
      pv * (1 + (imp / 100 * max 0 (1 - (k : ℚ) * (1/4))) * (15/100))
    else pv
  max 0 (min 100 pv')

/-- `adjusted_width` at year offset `k`: base width by horizon, divided by
the consistency factor, widened past age 32. -/
def adjustedWidthAt (cs : ℚ) (age : ℤ) (k : ℕ) : ℚ :=
  let baseWidth :=
    BASE_CONFIDENCE_WIDTHS.getD (min (k - 1) (BASE_CONFIDENCE_WIDTHS.length - 1)) 0
  let aw := baseWidth / consistencyFactor cs
  let fa := age + (k : ℤ)
  if 32 < fa then aw * (1 + ((fa - 32 : ℤ) : ℚ) * (1/10)) else aw

/-- `band = projected_value * adjusted_width`. -/
def bandAt (ptype : String) (age : ℤ) (v imp cs : ℚ) (k : ℕ) : ℚ :=
  projectedValueAt ptype age v imp k * adjustedWidthAt cs age k

/-- `upper_bound = round(min(100, projected_value + band), 1)`. -/
def upperAt (ptype : String) (age : ℤ) (v imp cs : ℚ) (k : ℕ) : ℚ :=
  rhe1 (min 100 (projectedValueAt ptype age v imp k + bandAt ptype age v imp cs k))

/-- `lower_bound = round(max(0, projected_value - band), 1)`. -/
def lowerAt (ptype : String) (age : ℤ) (v imp cs : ℚ) (k : ℕ) : ℚ :=
  rhe1 (max 0 (projectedValueAt ptype age v imp k - bandAt ptype age v imp cs k))

/-!
### Marcel baseline projector — `project_batter` / `project_pitcher`
(`src/backend/ml/models/marcel_baseline.py`)

One season cell for a given rate stat: the stat value (may be missing /
NaN) together with the playing-time cell (`pa` for batters, `ip` for
pitchers).
-/


structure MSeason where
  val : Option ℚ
  pt : Option ℚ
deriving DecidableEq

/-- `YEAR_WEIGHTS = {0: 5, 1: 4, 2: 3}` (most recent first). -/
def YEAR_WEIGHTS : List ℚ := [5, 4, 3]

/-- The batter rate-stat loop: accumulate `val * (year_weight * pa)` and
`year_weight * pa` over up to 3 seasons with a present value and `pa > 0`. -/
def batterRateAccum (pairs : List (MSeason × ℚ)) : ℚ × ℚ :=
  pairs.foldl (fun acc p =>
    match p.1.val with
    | none => acc
    | some v =>
      let pa := pyOr p.1.pt 0
      if 0 < pa then (acc.1 + v * (p.2 * pa), acc.2 + p.2 * pa) else acc) (0, 0)

/-- Same accumulation for pitchers, weighting by outs (`ip * 3`). -/
def pitcherRateAccum (pairs : List (MSeason × ℚ)) : ℚ × ℚ :=
  pairs.foldl (fun acc p =>
    match p.1.val with
    | none => acc
    | some v =>
      let outs := pyOr p.1.pt 0 * 3
      if 0 < outs then (acc.1 + v * (p.2 * outs), acc.2 + p.2 * outs) else acc) (0, 0)

/-- `total_pa = sum((s.get("pa", 0) or 0) for s in seasons[:3])`. -/
def totalPA (seasons : List MSeason) : ℚ :=
  ((seasons.take 3).map (fun s => pyOr s.pt 0)).sum

/-- `total_outs = sum((s.get("ip", 0) or 0) * 3 for s in seasons[:3])`. -/
def totalOuts (seasons : List MSeason) : ℚ :=
  ((seasons.take 3).map (fun s => pyOr s.pt 0 * 3)).sum

/-- Batter age adjustment: `1.0 - 0.006 * (age - 27)` — applied uniformly
to every batter rate stat; `project_batter` has no inverted branch. -/
def batterAgeAdj (age : ℤ) : ℚ := 1 - (6/1000) * ((age - 27 : ℤ) : ℚ)

/-- The stats for which `project_pitcher` inverts the age adjustment. -/
def PITCHER_INVERTED_STATS : List String :=
  ["era", "whip", "fip", "babip", "hr_fb_pct", "barrel_pct_against",
   "hard_hit_pct_against", "bb_pct"]

/-- Pitcher age adjustment: inverted (`1.0 + 0.006 * (age - 26)`) for the
lower-is-better set, `1.0 - 0.006 * (age - 26)` otherwise. -/
def pitcherAgeAdj (stat : String) (age : ℤ) : ℚ :=
  if stat ∈ PITCHER_INVERTED_STATS then 1 + (6/1000) * ((age - 26 : ℤ) : ℚ)
  else 1 - (6/1000) * ((age - 26 : ℤ) : ℚ)

/-- One batter rate stat of `project_batter`: weighted 3-year average,
regression toward the league constant with reliability
`total_pa / (total_pa + 1200)`, uniform age adjustment, `round(_, 4)`. -/
def marcelBatterRate (seasons : List MSeason) (age : ℤ) (leagueAvg : ℚ) :
    Option ℚ :=
  let acc := batterRateAccum ((seasons.take 3).zip YEAR_WEIGHTS)
  if 0 < acc.2 then
    let weightedAvg := acc.1 / acc.2
    let totalPa := totalPA seasons
    let reliability := totalPa / (totalPa + 1200)
    let regressed := reliability * weightedAvg + (1 - reliability) * leagueAvg
    some (rhe4 (regressed * batterAgeAdj age))
  else none

/-- One pitcher rate stat of `project_pitcher` (reliability constant 134
outs, direction-dependent age adjustment). -/
def marcelPitcherRate (stat : String) (seasons : List MSeason) (age : ℤ)
    (leagueAvg : ℚ) : Option ℚ :=
  let acc := pitcherRateAccum ((seasons.take 3).zip YEAR_WEIGHTS)
  if 0 < acc.2 then
    let weightedAvg := acc.1 / acc.2
    let tOuts := totalOuts seasons
    let reliability := tOuts / (tOuts + 134)
    let regressed := reliability * weightedAvg + (1 - reliability) * leagueAvg
    some (rhe4 (regressed * pitcherAgeAdj stat age))
  else none

/-- The hitter skills table of the improvement model:
`stat -> (higher_is_improvement, stickiness_weight)`; note `k_pct` is
tagged lower-is-better (`False`). -/
def HITTER_SKILLS_STATS : List (String × Bool × ℚ) :=
  [("k_pct", false, 1), ("bb_pct", true, 1), ("barrel_pct", true, 7/10),
   ("hard_hit_pct", true, 7/10), ("avg_exit_velocity", true, 7/10),
   ("sprint_speed", true, 4/10)]

/-!
### Consistency & improvement scorers
(`src/backend/ml/models/consistency_model.py`,
`src/backend/ml/models/improvement_model.py`)

One season row of the per-player group: season label, the playing-time
column (`pa`/`ip`, possibly NaN) and the stat columns (`none` covers both
a NaN cell and an absent column).
-/


structure SRow where
  season : ℤ
  pt : Option ℚ
  stats : String → Option ℚ

/-- Qualifying seasons: playing time present and at or above the
type-specific minimum, sorted most recent first, at most 3
(`PREFERRED_SEASONS`). -/
def qualifyingSeasons (rows : List SRow) (minPT : ℚ) : List SRow :=
  ((rows.filter (fun r =>
      match r.pt with
      | none => false
      | some p => decide (minPT ≤ p))).insertionSort
    (fun a b => a.season ≥ b.season)).take 3

/-- `qualifying[stat].dropna()` (still most recent first). -/
def statValues (q : List SRow) (stat : String) : List ℚ :=
  q.filterMap (fun r => r.stats stat)

/-- Least-squares slope of `y` against `x = 0, 1, …` (`np.polyfit(x,y,1)`). -/
def lsSlope (y : List ℚ) : ℚ :=
  let n : ℚ := y.length
  let xs := (List.range y.length).map (fun i => (i : ℚ))
  let sx := xs.sum
  let sy := y.sum
  let sxy := ((xs.zip y).map (fun p => p.1 * p.2)).sum
  let sxx := (xs.map (fun x => x * x)).sum
  (n * sxy - sx * sy) / (n * sxx - sx * sx)

def lsIntercept (y : List ℚ) : ℚ :=
  (y.sum - lsSlope y * ((List.range y.length).map (fun i => (i : ℚ))).sum)
    / y.length

/-- `r²` of the fit, 0 when `ss_tot` is 0, clamped nonnegative. -/
def rSquared (y : List ℚ) : ℚ :=
  let pred := (List.range y.length).map (fun i => lsSlope y * (i : ℚ) + lsIntercept y)
  let ssRes := ((y.zip pred).map (fun p => (p.1 - p.2) ^ 2)).sum
  let mean := y.sum / y.length
  let ssTot := (y.map (fun v => (v - mean) ^ 2)).sum
  max 0 (if 0 < ssTot then 1 - ssRes / ssTot else 0)

/-- Per-stat improvement signal: slope normalized by `|mean|` (when above
the `1e-6` guard), flipped for lower-is-better stats, discounted by `r²`. -/
def statSignal (higherIsImprovement : Bool) (y : List ℚ) : ℚ :=
  let meanAbs := |y.sum / y.length|
  let ns := if 1/1000000 < meanAbs then lsSlope y / meanAbs else lsSlope y
  let ns' := if higherIsImprovement then ns else -ns
  ns' * rSquared y

/-- The improvement loop over the skills table: each stat with at least 2
non-null values (oldest first) contributes `tier_weight * signal`. -/
def improvementAccum (q : List SRow) (table : List (String × Bool × ℚ)) :
    ℚ × ℚ :=
  table.foldl (fun acc entry =>
    let vals := statValues q entry.1
    if vals.length < 2 then acc
    else (acc.1 + entry.2.2 * statSignal entry.2.1 vals.reverse,
      acc.2 + entry.2.2)) (0, 0)

/-- `AGE_MULTIPLIERS` of the improvement model. -/
def AGE_MULTIPLIERS : List (ℤ × ℚ) := [(27, 12/10), (30, 1), (33, 6/10), (99, 3/10)]

/-- `_get_age_multiplier`: first threshold the age is below, else 0.3. -/
def getAgeMultiplier (age : ℤ) : ℚ :=
  ((AGE_MULTIPLIERS.find? (fun p => decide (age < p.1))).map Prod.snd).getD (3/10)

/-- `_calculate_improvement` for one player: `none` (no row) when the age
is missing, when fewer than 2 qualifying seasons exist, or when no stat
contributes weight; otherwise the clamped scaled score. -/
def improvementRow (age : Option ℤ) (rows : List SRow)
    (table : List (String × Bool × ℚ)) (minPT : ℚ) : Option ℚ :=
  match age with
  | none => none
  | some a =>
    let q := qualifyingSeasons rows minPT
    if q.length < 2 then none
    else
      let acc := improvementAccum q table
      if acc.2 = 0 then none
      else
        let raw := acc.1 / acc.2
        let scaled := raw * getAgeMultiplier a * 500
        some (max (-100) (min 100 (rhe1 scaled)))

/-- The batter stickiness table of the consistency model:
`stat -> (tier_weight, higher_is_better)` (the direction is unused by the
consistency loop). -/
def BATTER_STICKY_STATS : List (String × ℚ × Option Bool) :=
  [("k_pct", 1, some false), ("bb_pct", 1, some true), ("iso", 1, some true),
   ("barrel_pct", 7/10, some true), ("avg_exit_velocity", 7/10, some true),
   ("hard_hit_pct", 7/10, some true), ("gb_pct", 7/10, none),
   ("fb_pct", 7/10, none), ("woba", 4/10, some true),
   ("wrc_plus", 4/10, some true), ("sprint_speed", 4/10, some true)]

/-- Sample standard deviation (`pandas .std(ddof=1)`). -/
noncomputable def sampleStd (vals : List ℚ) : ℝ :=
  let mean : ℝ := ((vals.sum : ℚ) : ℝ) / vals.length
  Real.sqrt ((vals.map (fun v => (((v : ℚ) : ℝ) - mean) ^ 2)).sum
    / (vals.length - 1))

open Classical in

/-- Per-stat consistency `1 - min(cv, 1)` with the `mean ≈ 0` fallback
`cv = std * 10`. -/
noncomputable def statConsistency (vals : List ℚ) : ℝ :=
  let meanQ : ℚ := vals.sum / vals.length
  let std := sampleStd vals
  let cv : ℝ := if (1/1000000 : ℚ) < |meanQ| then std / |((meanQ : ℚ) : ℝ)|
    else std * 10
  1 - min cv 1

/-- The consistency loop over the stickiness table. -/
noncomputable def consistencyAccum (q : List SRow)
    (table : List (String × ℚ × Option Bool)) : ℝ × ℚ :=
  table.foldl (fun acc entry =>
    let vals := statValues q entry.1
    if vals.length < 2 then acc
    else (acc.1 + ((entry.2.1 : ℚ) : ℝ) * statConsistency vals,
      acc.2 + entry.2.1)) (0, 0)

open Classical in

/-- Round half to even at one decimal over ℝ (for the consistency score). -/
noncomputable def rheR (x : ℝ) : ℝ :=
  (if x * 10 - ⌊x * 10⌋ < 1/2 then ((⌊x * 10⌋ : ℤ) : ℝ)
   else if 1/2 < x * 10 - ⌊x * 10⌋ then ((⌊x * 10⌋ : ℤ) : ℝ) + 1
   else if ⌊x * 10⌋ % 2 = 0 then ((⌊x * 10⌋ : ℤ) : ℝ)
   else ((⌊x * 10⌋ : ℤ) : ℝ) + 1) / 10

/-- `_calculate_consistency` for one player: `none` (no row) when fewer
than 2 qualifying seasons exist or no stat contributes weight; otherwise
the tier-weighted average scaled to 0–100 and rounded. -/
noncomputable def consistencyRow (rows : List SRow)
    (table : List (String × ℚ × Option Bool)) (minPT : ℚ) : Option ℝ :=
  let q := qualifyingSeasons rows minPT
  if q.length < 2 then none
  else
    let acc := consistencyAccum q table
    if acc.2 = 0 then none
    else some (rheR (acc.1 / ((acc.2 : ℚ) : ℝ) * 100))

/-!
### Composite value scorer — `calculate_ai_value_scores`
(`src/backend/ml/models/value_model.py`)
-/

/-- One row of the composite scorer's input DataFrame. -/
structure VRow where
  player_id : ℤ
  sleeper_score : Option ℚ
  bust_score : Option ℚ
  consistency_score : Option ℚ
  improvement_score : Option ℚ
  auction_value : Option ℚ
  dynasty_value : Option ℚ

/-- The nine component weights, one field per `DEFAULT_WEIGHTS` key. -/
structure Weights where
  projected_value : ℚ
  sleeper_upside : ℚ
  bust_safety : ℚ
  consistency : ℚ
  age_curve : ℚ
  dynasty_premium : ℚ
  improvement : ℚ
  opportunity : ℚ
  trajectory_outlook : ℚ

def DEFAULT_WEIGHTS : Weights :=
  ⟨22/100, 10/100, 8/100, 12/100, 8/100, 13/100, 10/100, 5/100, 12/100⟩

/-- A caller-supplied weight-override map: `{**DEFAULT_WEIGHTS, **overrides}`
replaces the overridden entries. -/
structure WOverride where
  projected_value : Option ℚ := none
  sleeper_upside : Option ℚ := none
  bust_safety : Option ℚ := none
  consistency : Option ℚ := none
  age_curve : Option ℚ := none
  dynasty_premium : Option ℚ := none
  improvement : Option ℚ := none
  opportunity : Option ℚ := none
  trajectory_outlook : Option ℚ := none

def mergeWeights (o : WOverride) : Weights :=
  ⟨o.projected_value.getD DEFAULT_WEIGHTS.projected_value,
   o.sleeper_upside.getD DEFAULT_WEIGHTS.sleeper_upside,
   o.bust_safety.getD DEFAULT_WEIGHTS.bust_safety,
   o.consistency.getD DEFAULT_WEIGHTS.consistency,
   o.age_curve.getD DEFAULT_WEIGHTS.age_curve,
   o.dynasty_premium.getD DEFAULT_WEIGHTS.dynasty_premium,
   o.improvement.getD DEFAULT_WEIGHTS.improvement,
   o.opportunity.getD DEFAULT_WEIGHTS.opportunity,
   o.trajectory_outlook.getD DEFAULT_WEIGHTS.trajectory_outlook⟩

def sumWeights (w : Weights) : ℚ :=
  w.projected_value + w.sleeper_upside + w.bust_safety + w.consistency
    + w.age_curve + w.dynasty_premium + w.improvement + w.opportunity
    + w.trajectory_outlook

/-- `w = {k: v / total_w for k, v in w.items()}`. -/
def normalizeWeights (w : Weights) : Weights :=
  ⟨w.projected_value / sumWeights w, w.sleeper_upside / sumWeights w,
   w.bust_safety / sumWeights w, w.consistency / sumWeights w,
   w.age_curve / sumWeights w, w.dynasty_premium / sumWeights w,
   w.improvement / sumWeights w, w.opportunity / sumWeights w,
   w.trajectory_outlook / sumWeights w⟩

/-- `_age_curve_score`. -/
def ageCurveScore (age peakAge : ℤ) : ℚ :=
  if age < peakAge - 2 then 90
  else if age < peakAge then 85
  else if age ≤ peakAge + 2 then 75
  else if age ≤ 32 then 55
  else if age ≤ 35 then 35
  else 15

/-- `_trajectory_outlook_score`. -/
def trajectoryOutlookScore (age peakAge : ℤ) (improvement dynasty : ℚ) : ℚ :=
  let base := dynasty * (5/10)
  let base' :=
    if 0 < improvement then
      base + improvement * (3/10)
        * max (3/10) (1 - ((max 0 (age - peakAge) : ℤ) : ℚ) * (12/100))
    else base + improvement * (2/10)
  let ytp := peakAge - age
  let base'' :=
    if 0 < ytp then base' + min 20 (((ytp : ℤ) : ℚ) * 5)
    else if ytp < -5 then base' - min 15 (|((ytp : ℤ) : ℚ) + 5| * 3)
    else base'
  max 0 (min 100 base'')

/-- The nine component values of one row. -/
structure Components where
  projected_value : ℚ
  sleeper_upside : ℚ
  bust_safety : ℚ
  consistency : ℚ
  age_curve : ℚ
  dynasty_premium : ℚ
  improvement : ℚ
  opportunity : ℚ
  trajectory_outlook : ℚ

/-- The component block of `calculate_ai_value_scores` (Python `or`
defaults: `consistency_score or 50`, the rest `or 0`). -/
def vComponents (age peakAge : ℤ) (row : VRow) : Components :=
  let auctionVal := pyOr row.auction_value 0
  let sleeper := pyOr row.sleeper_score 0
  let bust := pyOr row.bust_score 0
  let consistency := pyOr row.consistency_score 50
  let dynasty := pyOr row.dynasty_value 0
  let improvement := pyOr row.improvement_score 0
  ⟨min 100 (max 0 (auctionVal * (25/10))),
   sleeper,
   100 - bust,
   consistency,
   ageCurveScore age peakAge,
   dynasty,
   min 100 (max 0 ((improvement + 100) / 2)),
   min 100 (max 0 (auctionVal * 3)),
   trajectoryOutlookScore age peakAge improvement dynasty⟩

/-- `ai_value = sum(w[k] * components[k] for k in w if k in components)`. -/
def weightedScore (w : Weights) (c : Components) : ℚ :=
  w.projected_value * c.projected_value + w.sleeper_upside * c.sleeper_upside
    + w.bust_safety * c.bust_safety + w.consistency * c.consistency
    + w.age_curve * c.age_curve + w.dynasty_premium * c.dynasty_premium
    + w.improvement * c.improvement + w.opportunity * c.opportunity
    + w.trajectory_outlook * c.trajectory_outlook

/-- `round(max(0, min(100, ai_value)), 1)` for one row. -/
def aiValueScoreAt (w : Weights) (age : ℤ) (ptype : String) (row : VRow) : ℚ :=
  let peakAge : ℤ := if ptype = "batter" then 27 else 26
  rhe1 (max 0 (min 100 (weightedScore w (vComponents age peakAge row))))

/-- `age = player_ages.get(pid, 30)` in the composite scorer. -/
def vRowAge (ages : ℤ → Option ℤ) (row : VRow) : ℤ := (ages row.player_id).getD 30

/-- `ptype = (player_types or {}).get(pid, "batter")`. -/
def vRowType (ptypes : ℤ → Option String) (row : VRow) : String :=
  (ptypes row.player_id).getD "batter"

/-- `calculate_ai_value_scores`: merged+normalized weights, one
`(player_id, ai_value_score)` per row. -/
def calculateAiValueScores (rows : List VRow) (ages : ℤ → Option ℤ)
    (ptypes : ℤ → Option String) (ov : WOverride) : List (ℤ × ℚ) :=
  let w := normalizeWeights (mergeWeights ov)
  rows.map (fun r => (r.player_id, aiValueScoreAt w (vRowAge ages r) (vRowType ptypes r) r))

theorem rhe_ge_floor (q : ℚ) : ⌊q⌋ ≤ rhe q := by
  unfold rhe
  split
  · exact le_refl _
  · split
    · exact le_of_lt (lt_add_one _)
    · split
      · exact le_refl _
      · exact le_of_lt (lt_add_one _)

theorem rhe_le_floor_add_one (q : ℚ) : rhe q ≤ ⌊q⌋ + 1 := by
  unfold rhe
  split
  · exact le_of_lt (lt_add_one _)
  · split
    · exact le_refl _
    · split
      · exact le_of_lt (lt_add_one _)
      · exact le_refl _

theorem rhe_intCast (n : ℤ) : rhe (n : ℚ) = n := by
  unfold rhe
  rw [Int.floor_intCast n, sub_self]
  norm_num

theorem rhe_mono {a b : ℚ} (h : a ≤ b) : rhe a ≤ rhe b := by
  rcases lt_or_le ⌊a⌋ ⌊b⌋ with hf | hf
  · calc rhe a ≤ ⌊a⌋ + 1 := rhe_le_floor_add_one a
      _ ≤ ⌊b⌋ := hf
      _ ≤ rhe b := rhe_ge_floor b
  · have hfe : ⌊a⌋ = ⌊b⌋ := le_antisymm (Int.floor_le_floor h) hf
    unfold rhe
    rw [hfe]
    have hr : a - ((⌊b⌋ : ℤ) : ℚ) ≤ b - ((⌊b⌋ : ℤ) : ℚ) := by linarith
    by_cases hb1 : b - ((⌊b⌋ : ℤ) : ℚ) < 1/2
    · rw [if_pos (lt_of_le_of_lt hr hb1), if_pos hb1]
    · rw [if_neg hb1]
      by_cases hb2 : 1/2 < b - ((⌊b⌋ : ℤ) : ℚ)
      · rw [if_pos hb2]
        split
        · exact le_of_lt (lt_add_one _)
        · split
          · exact le_refl _
          · split
            · exact le_of_lt (lt_add_one _)
            · exact le_refl _
      · rw [if_neg hb2]
        by_cases ha1 : a - ((⌊b⌋ : ℤ) : ℚ) < 1/2
        · rw [if_pos ha1]
          split
          · exact le_refl _
          · exact le_of_lt (lt_add_one _)
        · have haeq : a - ((⌊b⌋ : ℤ) : ℚ) = 1/2 :=
            le_antisymm (le_trans hr (not_lt.mp hb2)) (not_lt.mp ha1)
          rw [if_neg ha1, if_neg (by rw [haeq]; exact lt_irrefl _)]

theorem rhe1_mono {a b : ℚ} (h : a ≤ b) : rhe1 a ≤ rhe1 b := by
  unfold rhe1
  have h' := rhe_mono (by linarith : a * 10 ≤ b * 10)
  have h'' : ((rhe (a * 10) : ℤ) : ℚ) ≤ ((rhe (b * 10) : ℤ) : ℚ) := by
    exact_mod_cast h'
  linarith

theorem rhe1_ge_of_ge {a c : ℚ} {n : ℤ} (hn : (n : ℚ) = c * 10) (h : c ≤ a) :
    c ≤ rhe1 a := by
  have h1 : rhe ((n : ℚ)) ≤ rhe (a * 10) := rhe_mono (by rw [hn]; linarith)
  rw [rhe_intCast] at h1
  have h2 : ((n : ℚ)) ≤ ((rhe (a * 10) : ℤ) : ℚ) := by exact_mod_cast h1
  unfold rhe1
  linarith

theorem rhe1_le_of_le {a c : ℚ} {n : ℤ} (hn : (n : ℚ) = c * 10) (h : a ≤ c) :
    rhe1 a ≤ c := by
  have h1 : rhe (a * 10) ≤ rhe ((n : ℚ)) := rhe_mono (by rw [hn]; linarith)
  rw [rhe_intCast] at h1
  have h2 : ((rhe (a * 10) : ℤ) : ℚ) ≤ ((n : ℚ)) := by exact_mod_cast h1
  unfold rhe1
  linarith

theorem varOf_nonneg (l : List ℚ) (ts : ℕ) (s : ℚ) : 0 ≤ varOf l ts s :=
  le_max_right _ 0

/-- C1: provided the dollar pool covers the $1-per-slot reserve, every
player in the pool receives an auction value of at least $1; a player
with zero value above replacement receives exactly $1; and when the total
value above replacement is 0, every player receives the $1 floor. -/
theorem auction_value_floor (l : List ℚ) (td : ℚ) (ts : ℕ) (s : ℚ)
    (hs : s ∈ l) (hd : (ts : ℚ) ≤ td) :
    1 ≤ auctionValue l td ts s ∧
    (varOf l ts s ≤ 0 → auctionValue l td ts s = 1) ∧
    (totalVar l ts = 0 → auctionValue l td ts s = 1) := by
  unfold auctionValue
  by_cases hv : varOf l ts s ≤ 0
  · rw [if_pos hv]
    exact ⟨le_refl 1, fun _ => rfl, fun _ => rfl⟩
  · rw [if_neg hv]
    by_cases htv : 0 < totalVar l ts
    · rw [if_pos htv]
      refine ⟨?_, fun h => absurd h hv, fun h => absurd (h ▸ htv) (lt_irrefl 0)⟩
      have hvar : 0 ≤ varOf l ts s := varOf_nonneg l ts s
      have hdist : 0 ≤ td - (ts : ℚ) := by linarith
      have hx : (1:ℚ) ≤ varOf l ts s / totalVar l ts * (td - ts) + 1 := by
        have := mul_nonneg (div_nonneg hvar (le_of_lt htv)) hdist
        linarith
      exact rhe1_ge_of_ge (n := 10) (by norm_num) hx
    · rw [if_neg htv]
      exact ⟨le_refl 1, fun h => absurd h hv, fun _ => rfl⟩

theorem auction_value_floor_witness :
    ((5:ℚ) ∈ [(5:ℚ), 2, 1] ∧ ((2:ℕ):ℚ) ≤ 260) ∧
    (1 ≤ auctionValue [(5:ℚ), 2, 1] 260 2 5 ∧
      (varOf [(5:ℚ), 2, 1] 2 5 ≤ 0 → auctionValue [(5:ℚ), 2, 1] 260 2 5 = 1) ∧
      (totalVar [(5:ℚ), 2, 1] 2 = 0 → auctionValue [(5:ℚ), 2, 1] 260 2 5 = 1)) :=
  ⟨⟨by decide, by norm_num⟩,
    auction_value_floor [(5:ℚ), 2, 1] 260 2 5 (by decide) (by norm_num)⟩

theorem dynastyRaw_nonneg (age : ℤ) (v : ℚ) (n : ℕ) : 0 ≤ dynastyRaw age v n :=
  Finset.sum_nonneg (fun _ _ => le_max_left 0 _)

theorem colMax_le_of_mem : ∀ {l : List ℚ} {x m : ℚ}, x ∈ l → colMax l = some m → x ≤ m := by
  intro l
  induction l with
  | nil => intro x m hx _; cases hx
  | cons a as ih =>
    intro x m hx hm
    simp only [colMax] at hm
    cases has : colMax as with
    | none =>
      rw [has] at hm
      injection hm with h
      have hasnil : as = [] := by
        cases as with
        | nil => rfl
        | cons b bs =>
          exfalso
          simp only [colMax] at has
          rcases h2 : colMax bs with _ | mm <;> rw [h2] at has <;> simp at has
      subst hasnil
      rcases List.mem_cons.mp hx with rfl | hxs
      · rw [← h]
      · cases hxs
    | some m0 =>
      rw [has] at hm
      injection hm with h
      rcases List.mem_cons.mp hx with rfl | hxs
      · rw [← h]; exact le_max_left _ _
      · rw [← h]; exact le_trans (ih hxs has) (le_max_right _ _)

/-- C2: every dynasty value emitted by `calculate_dynasty_value` lies in
[0, 100], and when the pool maximum of the raw multi-year totals is 0,
every player's dynasty value is 0. -/
theorem dynasty_value_range (pool : List DRow) (ages : ℤ → Option ℤ)
    (yocMap : ℤ → Option ℕ) (inflation : ℚ) (out : ℚ × ℕ)
    (hout : out ∈ calculateDynastyValue pool ages yocMap inflation) :
    (0 ≤ out.1 ∧ out.1 ≤ 100) ∧
    (colMax (pool.map (rowDynastyRaw ages yocMap)) = some 0 → out.1 = 0) := by
  obtain ⟨r, hr, rfl⟩ := List.mem_map.mp hout
  dsimp only
  unfold rowDynastyValue
  cases hcm : colMax (pool.map (rowDynastyRaw ages yocMap)) with
  | none => exact ⟨⟨le_refl 0, by norm_num⟩, fun _ => rfl⟩
  | some m =>
    dsimp only
    by_cases hm : 0 < m
    · rw [if_pos hm]
      have hraw0 : 0 ≤ rowDynastyRaw ages yocMap r := dynastyRaw_nonneg _ _ _
      have hrawm : rowDynastyRaw ages yocMap r ≤ m :=
        colMax_le_of_mem (List.mem_map_of_mem _ hr) hcm
      have hlo : (0:ℚ) ≤ rowDynastyRaw ages yocMap r / m * 100 := by
        have := div_nonneg hraw0 (le_of_lt hm)
        linarith
      have hhi : rowDynastyRaw ages yocMap r / m * 100 ≤ 100 := by
        have hd : rowDynastyRaw ages yocMap r / m ≤ 1 := by
          rw [div_le_one hm]; exact hrawm
        linarith
      refine ⟨⟨rhe1_ge_of_ge (n := 0) (by norm_num) hlo,
        rhe1_le_of_le (n := 1000) (by norm_num) hhi⟩, ?_⟩
      intro h0
      injection h0 with h0
      exact absurd (h0 ▸ hm) (lt_irrefl 0)
    · rw [if_neg hm]
      exact ⟨⟨le_refl 0, by norm_num⟩, fun _ => rfl⟩

theorem dynasty_value_range_witness :
    ((0:ℚ), (0:ℕ)) ∈
      calculateDynastyValue [⟨1, some 0, none⟩] (fun _ => some 36)
        (fun _ => some 0) 5 ∧
    ((0 ≤ ((0:ℚ), (0:ℕ)).1 ∧ ((0:ℚ), (0:ℕ)).1 ≤ 100) ∧
      (colMax ([(⟨1, some 0, none⟩ : DRow)].map
          (rowDynastyRaw (fun _ => some 36) (fun _ => some 0))) = some 0 →
        ((0:ℚ), (0:ℕ)).1 = 0)) := by
  have hmem : ((0:ℚ), (0:ℕ)) ∈
      calculateDynastyValue [⟨1, some 0, none⟩] (fun _ => some 36)
        (fun _ => some 0) 5 := by
    simp [calculateDynastyValue, rowDynastyValue, rowDynastyRaw, rowKeepCut,
      rowYoc, rowAge, rowAnnualValue, rowCost, dynastyRaw, keepCut, colMax]
  exact ⟨hmem, dynasty_value_range _ _ _ _ _ hmem⟩

theorem ageFactor_antitone {a b : ℤ} (h : a ≤ b) : ageFactor b ≤ ageFactor a := by
  have hab : (a:ℚ) ≤ (b:ℚ) := by exact_mod_cast h
  unfold ageFactor
  by_cases hb27 : b ≤ 27
  · rw [if_pos hb27, if_pos (le_trans h hb27)]
    push_cast
    linarith
  · rw [if_neg hb27]
    have hb27' : (27:ℚ) < (b:ℚ) := by exact_mod_cast lt_of_not_le hb27
    by_cases hb32 : b ≤ 32
    · rw [if_pos hb32]
      by_cases ha27 : a ≤ 27
      · rw [if_pos ha27]
        have ha27' : (a:ℚ) ≤ 27 := by exact_mod_cast ha27
        push_cast
        linarith
      · rw [if_neg ha27, if_pos (le_trans h hb32)]
        push_cast
        linarith
    · rw [if_neg hb32]
      have hb32' : (32:ℚ) < (b:ℚ) := by exact_mod_cast lt_of_not_le hb32
      have hmax : max ((3:ℚ)/10)
          (1 - (2/100) * 5 - (4/100) * ((b - 32 : ℤ) : ℚ)) ≤ 9/10 := by
        apply max_le
        · norm_num
        · push_cast
          linarith
      by_cases ha27 : a ≤ 27
      · rw [if_pos ha27]
        have ha27' : (a:ℚ) ≤ 27 := by exact_mod_cast ha27
        refine le_trans hmax ?_
        push_cast
        linarith
      · rw [if_neg ha27]
        by_cases ha32 : a ≤ 32
        · rw [if_pos ha32]
          have ha32' : (a:ℚ) ≤ 32 := by exact_mod_cast ha32
          refine le_trans hmax ?_
          push_cast
          linarith
        · rw [if_neg ha32]
          apply max_le
          · exact le_max_left _ _
          · refine le_trans ?_ (le_max_right _ _)
            push_cast
            linarith

theorem dynastyRaw_eq_mul (age : ℤ) {v : ℚ} (hv : 0 ≤ v) (n : ℕ) :
    dynastyRaw age v n = v * dynastyRaw age 1 n := by
  unfold dynastyRaw
  rw [Finset.mul_sum]
  refine Finset.sum_congr rfl (fun y _ => ?_)
  rw [mul_max_of_nonneg _ _ hv, mul_zero]
  congr 1
  ring

set_option maxHeartbeats 2000000 in
theorem dynastyRaw_unit_age_24_33 : dynastyRaw 33 1 5 ≤ dynastyRaw 24 1 14 := by
  norm_num [dynastyRaw, Finset.sum_range_succ, ageFactor]

theorem prefLen_le (cond : ℕ → Prop) [DecidablePred cond] :
    ∀ n, prefLen cond n ≤ n
  | 0 => le_refl 0
  | n + 1 => by
    show (if cond n ∧ prefLen cond n = n then n + 1 else prefLen cond n) ≤ n + 1
    split
    · exact le_refl _
    · exact le_trans (prefLen_le cond n) (Nat.le_succ n)

theorem prefLen_le_succ (cond : ℕ → Prop) [DecidablePred cond] (n : ℕ) :
    prefLen cond n ≤ prefLen cond (n + 1) := by
  show prefLen cond n ≤ if cond n ∧ prefLen cond n = n then n + 1 else prefLen cond n
  split
  · exact le_trans (prefLen_le cond n) (Nat.le_succ n)
  · exact le_refl _

theorem prefLen_mono_n (cond : ℕ → Prop) [DecidablePred cond] {n m : ℕ}
    (h : n ≤ m) : prefLen cond n ≤ prefLen cond m := by
  induction m with
  | zero => cases Nat.le_zero.mp h; exact le_refl _
  | succ m ih =>
    rcases Nat.lt_or_ge n (m + 1) with hlt | hge
    · exact le_trans (ih (Nat.lt_succ_iff.mp hlt)) (prefLen_le_succ cond m)
    · rw [le_antisymm h hge]

theorem prefLen_mono_cond (c1 c2 : ℕ → Prop) [DecidablePred c1]
    [DecidablePred c2] (himp : ∀ y, c2 y → c1 y) :
    ∀ n, prefLen c2 n ≤ prefLen c1 n
  | 0 => le_refl 0
  | n + 1 => by
    have ih := prefLen_mono_cond c1 c2 himp n
    show (if c2 n ∧ prefLen c2 n = n then n + 1 else prefLen c2 n)
      ≤ if c1 n ∧ prefLen c1 n = n then n + 1 else prefLen c1 n
    by_cases h2 : c2 n ∧ prefLen c2 n = n
    · rw [if_pos h2]
      have h1 : prefLen c1 n = n :=
        le_antisymm (prefLen_le c1 n) (h2.2.symm.trans_le ih)
      rw [if_pos ⟨himp n h2.1, h1⟩]
    · rw [if_neg h2]
      by_cases h1 : c1 n ∧ prefLen c1 n = n
      · rw [if_pos h1]
        exact le_trans (le_trans ih (prefLen_le c1 n)) (Nat.le_succ n)
      · rw [if_neg h1]
        exact ih

theorem keepCut_eq_prefLen (age : ℤ) (v c infl : ℚ) (n : ℕ) :
    keepCut age v c infl n =
      prefLen (fun y => c + infl * (y:ℚ) < v * ageFactor (age + (y:ℤ))) n := by
  induction n with
  | zero => rfl
  | succ n ih =>
    unfold keepCut
    rw [List.range_succ, List.foldl_append, List.foldl_cons, List.foldl_nil]
    unfold keepCut at ih
    rw [ih]
    rfl

/-- C6: for two players of the same pool with equal (nonnegative) auction
value, equal expected cost and no explicit years of control, the
24-year-old's dynasty value and keep/cut horizon dominate the
33-year-old's. -/
theorem dynasty_age_monotonicity (pool : List DRow) (ages : ℤ → Option ℤ)
    (yocMap : ℤ → Option ℕ) (infl : ℚ) (r1 r2 : DRow)
    (h1 : r1 ∈ pool) (h2 : r2 ∈ pool)
    (hage1 : ages r1.player_id = some 24) (hage2 : ages r2.player_id = some 33)
    (hyoc1 : yocMap r1.player_id = none) (hyoc2 : yocMap r2.player_id = none)
    (hv : r1.auction_value = r2.auction_value)
    (hvpos : 0 ≤ rowAnnualValue r1)
    (hc : r1.expected_cost = r2.expected_cost) :
    rowDynastyValue pool ages yocMap r2 ≤ rowDynastyValue pool ages yocMap r1 ∧
    rowKeepCut ages yocMap infl r2 ≤ rowKeepCut ages yocMap infl r1 := by
  have hage1' : rowAge ages r1 = 24 := by rw [rowAge, hage1]; rfl
  have hage2' : rowAge ages r2 = 33 := by rw [rowAge, hage2]; rfl
  have hyoc1' : rowYoc yocMap ages r1 = 14 := by
    rw [rowYoc, hyoc1, hage1']; rfl
  have hyoc2' : rowYoc yocMap ages r2 = 5 := by
    rw [rowYoc, hyoc2, hage2']; rfl
  have hveq : rowAnnualValue r2 = rowAnnualValue r1 := by
    rw [rowAnnualValue, rowAnnualValue, hv]
  have hceq : rowCost r2 = rowCost r1 := by
    rw [rowCost, rowCost, hc]
  have hraw : rowDynastyRaw ages yocMap r2 ≤ rowDynastyRaw ages yocMap r1 := by
    rw [rowDynastyRaw, rowDynastyRaw, hage1', hage2', hyoc1', hyoc2', hveq]
    rw [dynastyRaw_eq_mul 33 hvpos 5, dynastyRaw_eq_mul 24 hvpos 14]
    exact mul_le_mul_of_nonneg_left dynastyRaw_unit_age_24_33 hvpos
  constructor
  · unfold rowDynastyValue
    cases hcm : colMax (pool.map (rowDynastyRaw ages yocMap)) with
    | none => exact le_refl 0
    | some m =>
      dsimp only
      by_cases hm : 0 < m
      · simp only [if_pos hm]
        apply rhe1_mono
        have hdiv : rowDynastyRaw ages yocMap r2 / m
            ≤ rowDynastyRaw ages yocMap r1 / m := by
          apply div_le_div_of_nonneg_right hraw (le_of_lt hm)
        linarith
      · simp only [if_neg hm]
        exact le_refl 0
  · rw [rowKeepCut, rowKeepCut, hage1', hage2', hyoc1', hyoc2', hveq, hceq]
    rw [keepCut_eq_prefLen, keepCut_eq_prefLen]
    refine le_trans
      (prefLen_mono_cond
        (fun y => rowCost r1 + infl * (y:ℚ) < rowAnnualValue r1 * ageFactor (24 + (y:ℤ)))
        (fun y => rowCost r1 + infl * (y:ℚ) < rowAnnualValue r1 * ageFactor (33 + (y:ℤ)))
        (fun y hy => lt_of_lt_of_le hy
          (mul_le_mul_of_nonneg_left
            (ageFactor_antitone (by omega : (24:ℤ) + y ≤ 33 + y)) hvpos)) 5)
      (prefLen_mono_n _ (by norm_num))

theorem dynasty_age_monotonicity_witness :
    ((⟨1, some 20, some 15⟩ : DRow) ∈
        [(⟨1, some 20, some 15⟩ : DRow), ⟨2, some 20, some 15⟩] ∧
      (⟨2, some 20, some 15⟩ : DRow) ∈
        [(⟨1, some 20, some 15⟩ : DRow), ⟨2, some 20, some 15⟩] ∧
      0 ≤ rowAnnualValue ⟨1, some 20, some 15⟩) ∧
    (rowDynastyValue [⟨1, some 20, some 15⟩, ⟨2, some 20, some 15⟩]
        (fun pid => if pid = 1 then some 24 else some 33) (fun _ => none)
        ⟨2, some 20, some 15⟩ ≤
      rowDynastyValue [⟨1, some 20, some 15⟩, ⟨2, some 20, some 15⟩]
        (fun pid => if pid = 1 then some 24 else some 33) (fun _ => none)
        ⟨1, some 20, some 15⟩ ∧
      rowKeepCut (fun pid => if pid = 1 then some 24 else some 33)
        (fun _ => none) 5 ⟨2, some 20, some 15⟩ ≤
      rowKeepCut (fun pid => if pid = 1 then some 24 else some 33)
        (fun _ => none) 5 ⟨1, some 20, some 15⟩) :=
  ⟨⟨by decide, by decide, by decide⟩,
    dynasty_age_monotonicity _ _ _ 5 _ _ (by decide) (by decide)
      (by decide) (by decide) (by decide) (by decide) rfl (by decide) rfl⟩

theorem projectedValueAt_nonneg (ptype : String) (age : ℤ) (v imp : ℚ) (k : ℕ) :
    0 ≤ projectedValueAt ptype age v imp k :=
  le_max_left 0 _

theorem getD_nonneg {l : List ℚ} (hl : ∀ x ∈ l, 0 ≤ x) {d : ℚ} (hd : 0 ≤ d)
    (i : ℕ) : 0 ≤ l.getD i d := by
  rcases lt_or_ge i l.length with hi | hi
  · rw [List.getD_eq_getElem l d hi]
    exact hl _ (List.getElem_mem hi)
  · rw [List.getD_eq_default l d hi]
    exact hd

theorem base_widths_nonneg (i : ℕ) : 0 ≤ BASE_CONFIDENCE_WIDTHS.getD i 0 := by
  refine getD_nonneg ?_ (le_refl 0) i
  intro x hx
  simp only [BASE_CONFIDENCE_WIDTHS, List.mem_cons, List.not_mem_nil, or_false] at hx
  rcases hx with rfl | rfl | rfl | rfl | rfl | rfl | rfl | rfl <;> norm_num

theorem consistencyFactor_pos (cs : ℚ) : 0 < consistencyFactor cs :=
  lt_of_lt_of_le (by norm_num) (le_max_left (1/2) (cs / 100))

theorem consistencyFactor_mono {a b : ℚ} (h : a ≤ b) :
    consistencyFactor a ≤ consistencyFactor b :=
  max_le_max (le_refl _) (by linarith)

theorem adjustedWidthAt_nonneg (cs : ℚ) (age : ℤ) (k : ℕ) :
    0 ≤ adjustedWidthAt cs age k := by
  unfold adjustedWidthAt
  dsimp only
  have hbw := base_widths_nonneg (min (k - 1) (BASE_CONFIDENCE_WIDTHS.length - 1))
  have hcf := consistencyFactor_pos cs
  have haw : 0 ≤ BASE_CONFIDENCE_WIDTHS.getD
      (min (k - 1) (BASE_CONFIDENCE_WIDTHS.length - 1)) 0 / consistencyFactor cs :=
    div_nonneg hbw (le_of_lt hcf)
  split
  · rename_i hfa
    have : (0:ℚ) ≤ 1 + ((age + (k:ℤ) - 32 : ℤ) : ℚ) * (1/10) := by
      have h32 : (32:ℚ) < (age:ℚ) + (k:ℚ) := by exact_mod_cast hfa
      push_cast
      linarith
    exact mul_nonneg haw this
  · exact haw

theorem adjustedWidthAt_anti_cs {cs1 cs2 : ℚ} (h : cs1 ≤ cs2) (age : ℤ) (k : ℕ) :
    adjustedWidthAt cs2 age k ≤ adjustedWidthAt cs1 age k := by
  unfold adjustedWidthAt
  dsimp only
  have hbw := base_widths_nonneg (min (k - 1) (BASE_CONFIDENCE_WIDTHS.length - 1))
  have hcf1 := consistencyFactor_pos cs1
  have hdiv : BASE_CONFIDENCE_WIDTHS.getD
        (min (k - 1) (BASE_CONFIDENCE_WIDTHS.length - 1)) 0 / consistencyFactor cs2
      ≤ BASE_CONFIDENCE_WIDTHS.getD
        (min (k - 1) (BASE_CONFIDENCE_WIDTHS.length - 1)) 0 / consistencyFactor cs1 :=
    div_le_div_of_nonneg_left hbw hcf1 (consistencyFactor_mono h)
  split
  · rename_i hfa
    have hmul : (0:ℚ) ≤ 1 + ((age + (k:ℤ) - 32 : ℤ) : ℚ) * (1/10) := by
      have h32 : (32:ℚ) < (age:ℚ) + (k:ℚ) := by exact_mod_cast hfa
      push_cast
      linarith
    exact mul_le_mul_of_nonneg_right hdiv hmul
  · exact hdiv

/-- C7: with all other inputs equal, the lower-consistency projection has
a confidence band at least as wide as the higher-consistency projection at
every horizon year. -/
theorem trajectory_band_consistency (ptype : String) (age : ℤ) (v imp : ℚ)
    (cs1 cs2 : ℚ) (k : ℕ) (h : cs1 ≤ cs2) :
    upperAt ptype age v imp cs2 k - lowerAt ptype age v imp cs2 k
      ≤ upperAt ptype age v imp cs1 k - lowerAt ptype age v imp cs1 k := by
  have hpv := projectedValueAt_nonneg ptype age v imp k
  have haw := adjustedWidthAt_anti_cs h age k
  have haw2 := adjustedWidthAt_nonneg cs2 age k
  have hband : bandAt ptype age v imp cs2 k ≤ bandAt ptype age v imp cs1 k :=
    mul_le_mul_of_nonneg_left haw hpv
  have hupper : upperAt ptype age v imp cs2 k ≤ upperAt ptype age v imp cs1 k := by
    unfold upperAt
    exact rhe1_mono (min_le_min (le_refl 100) (by linarith))
  have hlower : lowerAt ptype age v imp cs1 k ≤ lowerAt ptype age v imp cs2 k := by
    unfold lowerAt
    exact rhe1_mono (max_le_max (le_refl 0) (by linarith))
  linarith

theorem trajectory_band_consistency_witness :
    ((30:ℚ) ≤ 90) ∧
    (upperAt "batter" 28 70 0 90 3 - lowerAt "batter" 28 70 0 90 3
      ≤ upperAt "batter" 28 70 0 30 3 - lowerAt "batter" 28 70 0 30 3) :=
  ⟨by norm_num, trajectory_band_consistency "batter" 28 70 0 30 90 3 (by norm_num)⟩

/-- C8 counterexample: for a 39-year-old batter (value 50, improvement 0,
consistency 50) the confidence-band width SHRINKS from horizon year 1
(width 14.4) to horizon year 2 (width 13.4): past age 40 the aging-curve
factor halves, so the absolute band `projected_value * adjusted_width`
drops even though the relative width grows. -/
theorem band_width_not_monotone :
    upperAt "batter" 39 50 0 50 2 - lowerAt "batter" 39 50 0 50 2
      < upperAt "batter" 39 50 0 50 1 - lowerAt "batter" 39 50 0 50 1 := by
  norm_num [upperAt, lowerAt, bandAt, projectedValueAt, adjustedWidthAt,
    estimatedPeakValue, improvementAdjustment, consistencyFactor, getAgeFactor,
    agingCurveFor, peakAgeFor, BATTER_AGING_CURVE, BASE_CONFIDENCE_WIDTHS,
    rhe1, rhe]

theorem base_widths_adjacent (i : ℕ) (h : i < 7) :
    BASE_CONFIDENCE_WIDTHS.getD i 0 ≤ BASE_CONFIDENCE_WIDTHS.getD (i + 1) 0 := by
  interval_cases i <;> norm_num [BASE_CONFIDENCE_WIDTHS]

theorem base_widths_mono {i j : ℕ} (hij : i ≤ j) (hj : j ≤ 7) :
    BASE_CONFIDENCE_WIDTHS.getD i 0 ≤ BASE_CONFIDENCE_WIDTHS.getD j 0 := by
  induction j with
  | zero =>
    have : i = 0 := Nat.le_zero.mp hij
    rw [this]
  | succ j ih =>
    rcases Nat.lt_or_ge i (j + 1) with hlt | hge
    · exact le_trans (ih (by omega) (by omega)) (base_widths_adjacent j (by omega))
    · rw [le_antisymm hij hge]

/-- C8 amended: what is monotone in the horizon is the RELATIVE width
coefficient `adjusted_width` (base width over consistency factor, times
the old-age multiplier): it never decreases from one horizon year to the
next.  The absolute band width `projected_value * adjusted_width` can
shrink when the projected value collapses (see the counterexample). -/
theorem adjusted_width_mono_horizon (cs : ℚ) (age : ℤ) (k : ℕ) (hk : 1 ≤ k) :
    adjustedWidthAt cs age k ≤ adjustedWidthAt cs age (k + 1) := by
  unfold adjustedWidthAt
  dsimp only
  have hlen : BASE_CONFIDENCE_WIDTHS.length - 1 = 7 := rfl
  rw [hlen]
  have hbm : BASE_CONFIDENCE_WIDTHS.getD (min (k - 1) 7) 0
      ≤ BASE_CONFIDENCE_WIDTHS.getD (min (k + 1 - 1) 7) 0 :=
    base_widths_mono (by omega) (by omega)
  have hcf := consistencyFactor_pos cs
  have hdiv : BASE_CONFIDENCE_WIDTHS.getD (min (k - 1) 7) 0 / consistencyFactor cs
      ≤ BASE_CONFIDENCE_WIDTHS.getD (min (k + 1 - 1) 7) 0 / consistencyFactor cs :=
    div_le_div_of_nonneg_right hbm (le_of_lt hcf)
  have hq0 : 0 ≤ BASE_CONFIDENCE_WIDTHS.getD (min (k - 1) 7) 0 / consistencyFactor cs :=
    div_nonneg (base_widths_nonneg _) (le_of_lt hcf)
  have hq1 : 0 ≤ BASE_CONFIDENCE_WIDTHS.getD (min (k + 1 - 1) 7) 0 / consistencyFactor cs :=
    div_nonneg (base_widths_nonneg _) (le_of_lt hcf)
  by_cases hfa1 : 32 < age + ((k + 1 : ℕ) : ℤ)
  · rw [if_pos hfa1]
    have hm1 : (1:ℚ) ≤ 1 + ((age + ((k + 1 : ℕ) : ℤ) - 32 : ℤ) : ℚ) * (1 / 10) := by
      have : (32:ℚ) < (age:ℚ) + ((k:ℚ) + 1) := by exact_mod_cast hfa1
      push_cast
      linarith
    by_cases hfa0 : 32 < age + (k : ℤ)
    · rw [if_pos hfa0]
      have hle : (1:ℚ) + ((age + (k:ℤ) - 32 : ℤ) : ℚ) * (1 / 10)
          ≤ 1 + ((age + ((k + 1 : ℕ) : ℤ) - 32 : ℤ) : ℚ) * (1 / 10) := by
        push_cast
        linarith
      have h0 : (0:ℚ) ≤ 1 + ((age + (k:ℤ) - 32 : ℤ) : ℚ) * (1 / 10) := by
        have : (32:ℚ) < (age:ℚ) + (k:ℚ) := by exact_mod_cast hfa0
        push_cast
        linarith
      exact mul_le_mul hdiv hle h0 hq1
    · rw [if_neg hfa0]
      exact le_trans hdiv (le_mul_of_one_le_right hq1 hm1)
  · rw [if_neg hfa1]
    have hfa0 : ¬ 32 < age + (k : ℤ) := by
      push_cast at hfa1 ⊢
      omega
    rw [if_neg hfa0]
    exact hdiv

theorem adjusted_width_mono_horizon_witness :
    (1 ≤ 1) ∧ adjustedWidthAt 50 28 1 ≤ adjustedWidthAt 50 28 (1 + 1) :=
  ⟨le_refl 1, adjusted_width_mono_horizon 50 28 1 (le_refl 1)⟩

/-- C5 counterexample: a batter's strikeout rate is lower-is-better (its
hitter-skills tag is `false`), yet `project_batter` applies the uniform
non-inverted multiplier: for the same single season (`k_pct = 0.2`,
`pa = 500`), the age-33 projection 0.2098 is LOWER (better) than the
peak-age-27 projection 0.2176 — aging improves the stat instead of
degrading it, so the claimed inversion does not exist for batters. -/
theorem batter_k_pct_adjustment_improves_past_peak :
    HITTER_SKILLS_STATS.lookup "k_pct" = some (false, 1) ∧
    marcelBatterRate [⟨some (2/10), some 500⟩] 33 (225/1000)
      = some (2098/10000) ∧
    marcelBatterRate [⟨some (2/10), some 500⟩] 27 (225/1000)
      = some (2176/10000) ∧
    ((2098:ℚ)/10000 < 2176/10000) := by
  refine ⟨rfl, ?_, ?_, by norm_num⟩ <;>
    norm_num [marcelBatterRate, batterRateAccum, totalPA, YEAR_WEIGHTS, pyOr,
      batterAgeAdj, rhe4, rhe]

/-- C5 amended: only `project_pitcher` inverts the age adjustment: for
every stat in its lower-is-better set a past-peak age gives a multiplier
above 1, raising a nonnegative regressed value; `project_batter` applies
the non-inverted multiplier to all batter rate stats, so past peak it
multiplies by a factor below 1 and lowers them — including the
lower-is-better `k_pct`. -/
theorem age_adjustment_inversion_pitcher_only (stat : String) (age : ℤ)
    (r : ℚ) (hstat : stat ∈ PITCHER_INVERTED_STATS) (hage : 27 < age)
    (hr : 0 ≤ r) :
    (1 ≤ pitcherAgeAdj stat age ∧ r ≤ r * pitcherAgeAdj stat age) ∧
    (batterAgeAdj age < 1 ∧ r * batterAgeAdj age ≤ r) := by
  have hage' : (27:ℚ) < (age:ℚ) := by exact_mod_cast hage
  have hp : 1 ≤ pitcherAgeAdj stat age := by
    unfold pitcherAgeAdj
    rw [if_pos hstat]
    push_cast
    linarith
  have hb : batterAgeAdj age < 1 := by
    unfold batterAgeAdj
    push_cast
    linarith
  have hb0 : batterAgeAdj age ≤ 1 := le_of_lt hb
  exact ⟨⟨hp, le_mul_of_one_le_right hr hp⟩,
    ⟨hb, mul_le_of_le_one_right hr hb0⟩⟩

theorem age_adjustment_inversion_pitcher_only_witness :
    ("era" ∈ PITCHER_INVERTED_STATS ∧ (27:ℤ) < 33 ∧ (0:ℚ) ≤ 4) ∧
    ((1 ≤ pitcherAgeAdj "era" 33 ∧ 4 ≤ 4 * pitcherAgeAdj "era" 33) ∧
      (batterAgeAdj 33 < 1 ∧ 4 * batterAgeAdj 33 ≤ 4)) :=
  ⟨⟨by decide, by decide, by decide⟩,
    age_adjustment_inversion_pitcher_only "era" 33 4 (by decide) (by decide)
      (by decide)⟩

/-- C4: a player with fewer than 2 qualifying seasons gets no consistency
row and no improvement row at all — the scores are absent, not 0. -/
theorem insufficient_seasons_no_score (rows : List SRow) (age : ℤ)
    (ctable : List (String × ℚ × Option Bool))
    (itable : List (String × Bool × ℚ)) (minPT : ℚ)
    (h : (qualifyingSeasons rows minPT).length < 2) :
    consistencyRow rows ctable minPT = none ∧
    improvementRow (some age) rows itable minPT = none := by
  constructor
  · unfold consistencyRow
    dsimp only
    rw [if_pos h]
  · unfold improvementRow
    dsimp only
    rw [if_pos h]

theorem insufficient_seasons_no_score_witness :
    (qualifyingSeasons
        [⟨2023, some 600, fun _ => none⟩, ⟨2022, some 50, fun _ => none⟩]
        200).length < 2 ∧
    (consistencyRow
        [⟨2023, some 600, fun _ => none⟩, ⟨2022, some 50, fun _ => none⟩]
        BATTER_STICKY_STATS 200 = none ∧
      improvementRow (some 25)
        [⟨2023, some 600, fun _ => none⟩, ⟨2022, some 50, fun _ => none⟩]
        HITTER_SKILLS_STATS 200 = none) := by
  have h : (qualifyingSeasons
      [⟨2023, some 600, fun _ => none⟩, ⟨2022, some 50, fun _ => none⟩]
      200).length < 2 := by
    norm_num [qualifyingSeasons, List.insertionSort]
  exact ⟨h, insufficient_seasons_no_score _ 25 BATTER_STICKY_STATS
    HITTER_SKILLS_STATS 200 h⟩

/-- C9: for any weight override with nonzero merged total, the effective
weights are renormalized to sum to exactly 1, and every returned
`ai_value_score` lies in [0, 100]. -/
theorem ai_value_score_range (rows : List VRow) (ages : ℤ → Option ℤ)
    (ptypes : ℤ → Option String) (ov : WOverride) (out : ℤ × ℚ)
    (hw : sumWeights (mergeWeights ov) ≠ 0)
    (hout : out ∈ calculateAiValueScores rows ages ptypes ov) :
    sumWeights (normalizeWeights (mergeWeights ov)) = 1 ∧
    (0 ≤ out.2 ∧ out.2 ≤ 100) := by
  constructor
  · show (mergeWeights ov).projected_value / sumWeights (mergeWeights ov)
      + (mergeWeights ov).sleeper_upside / sumWeights (mergeWeights ov)
      + (mergeWeights ov).bust_safety / sumWeights (mergeWeights ov)
      + (mergeWeights ov).consistency / sumWeights (mergeWeights ov)
      + (mergeWeights ov).age_curve / sumWeights (mergeWeights ov)
      + (mergeWeights ov).dynasty_premium / sumWeights (mergeWeights ov)
      + (mergeWeights ov).improvement / sumWeights (mergeWeights ov)
      + (mergeWeights ov).opportunity / sumWeights (mergeWeights ov)
      + (mergeWeights ov).trajectory_outlook / sumWeights (mergeWeights ov) = 1
    rw [div_add_div_same, div_add_div_same, div_add_div_same, div_add_div_same,
      div_add_div_same, div_add_div_same, div_add_div_same, div_add_div_same]
    exact div_self hw
  · obtain ⟨r, hr, rfl⟩ := List.mem_map.mp hout
    dsimp only
    unfold aiValueScoreAt
    have hlo : (0:ℚ) ≤ max 0 (min 100
        (weightedScore (normalizeWeights (mergeWeights ov))
          (vComponents (vRowAge ages r)
            (if vRowType ptypes r = "batter" then 27 else 26) r))) :=
      le_max_left 0 _
    have hhi : max 0 (min 100
        (weightedScore (normalizeWeights (mergeWeights ov))
          (vComponents (vRowAge ages r)
            (if vRowType ptypes r = "batter" then 27 else 26) r))) ≤ 100 :=
      max_le (by norm_num) (min_le_left 100 _)
    exact ⟨rhe1_ge_of_ge (n := 0) (by norm_num) hlo,
      rhe1_le_of_le (n := 1000) (by norm_num) hhi⟩

set_option maxHeartbeats 4000000 in
theorem ai_value_score_range_witness :
    (sumWeights (mergeWeights {}) ≠ 0 ∧
      ((1:ℤ), (234:ℚ)/10) ∈
        calculateAiValueScores [⟨1, none, none, none, none, none, none⟩]
          (fun _ => none) (fun _ => none) {}) ∧
    (sumWeights (normalizeWeights (mergeWeights {})) = 1 ∧
      (0 ≤ ((1:ℤ), (234:ℚ)/10).2 ∧ ((1:ℤ), (234:ℚ)/10).2 ≤ 100)) := by
  have hw : sumWeights (mergeWeights {}) ≠ 0 := by
    norm_num [sumWeights, mergeWeights, DEFAULT_WEIGHTS]
  have hsum : sumWeights DEFAULT_WEIGHTS = 1 := by
    norm_num [sumWeights, DEFAULT_WEIGHTS]
  have hnw : normalizeWeights (mergeWeights {}) = DEFAULT_WEIGHTS := by
    show normalizeWeights DEFAULT_WEIGHTS = DEFAULT_WEIGHTS
    unfold normalizeWeights
    rw [hsum]
    norm_num
  have hmem : ((1:ℤ), (234:ℚ)/10) ∈
      calculateAiValueScores [⟨1, none, none, none, none, none, none⟩]
        (fun _ => none) (fun _ => none) {} := by
    unfold calculateAiValueScores
    rw [hnw]
    norm_num [aiValueScoreAt, vComponents, vRowAge, vRowType, weightedScore,
      DEFAULT_WEIGHTS, pyOr, ageCurveScore, trajectoryOutlookScore, rhe1, rhe]
  exact ⟨⟨hw, hmem⟩, ai_value_score_range _ _ _ _ _ hw hmem⟩

/-- C10: in the component block, a present-but-zero `consistency_score`
falls through Python's `or` to the neutral default 50, exactly like an
absent score; a nonzero score is taken as is. -/
theorem consistency_component_zero_is_neutral (age peakAge : ℤ) (row : VRow)
    (c : ℚ) (hc : c ≠ 0) :
    (row.consistency_score = some 0 → (vComponents age peakAge row).consistency = 50) ∧
    (row.consistency_score = none → (vComponents age peakAge row).consistency = 50) ∧
    (row.consistency_score = some c → (vComponents age peakAge row).consistency = c) := by
  have hr : (vComponents age peakAge row).consistency
      = pyOr row.consistency_score 50 := rfl
  refine ⟨fun h => ?_, fun h => ?_, fun h => ?_⟩ <;> rw [hr, h] <;>
    norm_num [pyOr, hc]

theorem consistency_component_zero_is_neutral_witness :
    ((30:ℚ) ≠ 0) ∧
    (((⟨1, none, none, some 0, none, none, none⟩ : VRow).consistency_score = some 0 →
        (vComponents 25 27 ⟨1, none, none, some 0, none, none, none⟩).consistency = 50) ∧
      ((⟨1, none, none, some 0, none, none, none⟩ : VRow).consistency_score = none →
        (vComponents 25 27 ⟨1, none, none, some 0, none, none, none⟩).consistency = 50) ∧
      ((⟨1, none, none, some 0, none, none, none⟩ : VRow).consistency_score = some 30 →
        (vComponents 25 27 ⟨1, none, none, some 0, none, none, none⟩).consistency = 30)) :=
  ⟨by norm_num,
    consistency_component_zero_is_neutral 25 27
      ⟨1, none, none, some 0, none, none, none⟩ 30 (by norm_num)⟩

/-!
### Missing-age policy across the pipeline
-/

/-- C3 counterexample: a player whose id is absent from the age map is NOT
excluded by `calculate_dynasty_value` — with `player_ages = {}` the single
player (auction value $20, cost $15, one explicit year of control) still
receives a full row, valued with the default age 30
(`age_factor(30) = 0.94`): dynasty value 100, keep/cut horizon 1. -/
theorem missing_age_player_not_excluded :
    calculateDynastyValue [⟨1, some 20, some 15⟩] (fun _ => none)
      (fun _ => some 1) 5 = [(100, 1)] := by
  norm_num [calculateDynastyValue, rowDynastyValue, rowDynastyRaw, rowKeepCut,
    rowAge, rowYoc, rowAnnualValue, rowCost, dynastyRaw, keepCut, colMax,
    ageFactor, Finset.sum_range_succ, List.range_succ, rhe1, rhe]

/-- C3 amended: the exclusion of missing-age players holds only for the
statistical scorers (the improvement model skips a player with no age
entry); the dynasty valuation and the composite scorer instead substitute
the default age 30 via `player_ages.get(pid, 30)` and never drop a row. -/
theorem missing_age_policy (rows : List SRow)
    (itable : List (String × Bool × ℚ)) (minPT : ℚ) (pool : List DRow)
    (ages : ℤ → Option ℤ) (yocMap : ℤ → Option ℕ) (infl : ℚ) (r : DRow)
    (vages : ℤ → Option ℤ) (vrow : VRow)
    (hnone : ages r.player_id = none) (hvnone : vages vrow.player_id = none) :
    improvementRow none rows itable minPT = none ∧
    rowAge ages r = 30 ∧
    vRowAge vages vrow = 30 ∧
    (calculateDynastyValue pool ages yocMap infl).length = pool.length := by
  refine ⟨rfl, ?_, ?_, ?_⟩
  · rw [rowAge, hnone]
    rfl
  · rw [vRowAge, hvnone]
    rfl
  · simp only [calculateDynastyValue, List.length_map]

theorem missing_age_policy_witness :
    ((fun _ : ℤ => (none : Option ℤ)) (1:ℤ) = none ∧
      (fun _ : ℤ => (none : Option ℤ)) (1:ℤ) = none) ∧
    (improvementRow none [] HITTER_SKILLS_STATS 200 = none ∧
      rowAge (fun _ => none) ⟨1, none, none⟩ = 30 ∧
      vRowAge (fun _ => none) ⟨1, none, none, none, none, none, none⟩ = 30 ∧
      (calculateDynastyValue [⟨1, none, none⟩] (fun _ => none)
        (fun _ => none) 5).length = [(⟨1, none, none⟩ : DRow)].length) :=
  ⟨⟨rfl, rfl⟩,
    missing_age_policy [] HITTER_SKILLS_STATS 200 [⟨1, none, none⟩]
      (fun _ => none) (fun _ => none) 5 ⟨1, none, none⟩ (fun _ => none)
      ⟨1, none, none, none, none, none, none⟩ rfl rfl⟩

end FB
